import Mathlib

/-!
Shallow embedding of the stream-session correlation and timeout-detection
engine of the `mp-mock` repository (a MediaPackage-style mock ingest server),
together with proofs about its merge, correlation, timeout and metrics logic.

Modelling conventions, used throughout:

* JavaScript strings are modelled as `List Char` (`Str`).  The JS string
  operations the engine uses (`split` on a single-character separator,
  `trim`, `startsWith`, `parseInt`, `parseFloat`) are implemented below with
  JS semantics for the inputs the engine handles (ASCII playlist text; JS
  `trim` strips a few additional Unicode space code points that never occur
  here, and `parseInt`/`parseFloat` yield `NaN` on digit-free input, which is
  modelled as `0` — no property proved below depends on digit-free numerals
  or on exponent notation, which is likewise not modelled).
* JS `Map`s are modelled as insertion-ordered association lists:
  `setAssoc` replaces an existing key in place (preserving its position) and
  appends a new key at the end, exactly like `Map.prototype.set`, and
  iteration order is list order, like `Map.prototype.entries`.
* Timestamps (`Date.now()`) and byte sizes are `Nat`; differences of
  timestamps (arrival intervals) are `Int`; `#EXTINF` durations are `Rat`.
* Timer handles (`NodeJS.Timeout`) are modelled as `Option Int` holding the
  armed absolute deadline (`none` = no pending timer); `setTimeout` itself is
  an external collaborator, so a deadline firing is a separate event.
* The HTTP layer (route matching, parameter extraction, request bodies) and
  the storage collaborator (`fs` writes) are out of scope per the spec; the
  embedded operations receive the already-extracted parameters and model
  only the tracking-state mutation, which in the source happens strictly
  after the body check and the storage write.
-/

deriving instance DecidableEq for Except

/-- JavaScript strings, modelled as their character lists. -/
abbrev Str := List Char

/-- View a Lean string literal as a model string. -/
def str (s : String) : Str := s.data

/-- The newline character, the separator of `content.split('\n')`. -/
def nlChar : Char := Char.ofNat 10

/-- JS `s.split(sep)` for a single-character separator: splits at every
occurrence, keeping empty pieces (so a trailing separator yields a trailing
empty piece, and `"".split` yields `[""]`). -/
def jsSplit (sep : Char) : Str → List Str
  | [] => [[]]
  | c :: cs =>
    if c = sep then [] :: jsSplit sep cs
    else
      match jsSplit sep cs with
      | [] => [[c]]
      | r :: rs => (c :: r) :: rs

/-- JS `s.trim()`: drop leading and trailing whitespace. -/
def jsTrim (s : Str) : Str :=
  ((s.dropWhile Char.isWhitespace).reverse.dropWhile Char.isWhitespace).reverse

/-- Numeric value of a digit string (most significant first). -/
def natOfDigits (ds : Str) : Nat :=
  ds.foldl (fun a c => a * 10 + (c.toNat - 48)) 0

/-- JS `parseInt(s, 10)`: skip leading whitespace, optional sign, then the
longest digit run; `NaN` (no digits) is modelled as `0`. -/
def parseIntJS (s : Str) : Int :=
  let t := s.dropWhile Char.isWhitespace
  let neg : Bool := t.headD (Char.ofNat 0) = Char.ofNat 45
  let t2 := if neg || t.headD (Char.ofNat 0) = Char.ofNat 43 then t.tail else t
  let ds := t2.takeWhile Char.isDigit
  if ds.isEmpty then 0
  else if neg then -(natOfDigits ds : Int) else (natOfDigits ds : Int)

/-- JS `parseFloat(s)` on decimal notation: skip leading whitespace, optional
sign (`45`/`43` are the code points of the minus and plus signs, `46` the
decimal point), integer digits, optional fraction digits; the longest valid
numeric prefix is parsed and trailing junk is ignored.  The value
`±(integer digits).(fraction digits)` is the exact rational
`±natOfDigits(ip ++ fd) / 10 ^ |fd|`.  `NaN` (no digits at all) is modelled
as `0`; exponent notation is not modelled (the engine's playlists use plain
decimals). -/
def parseFloatJS (s : Str) : Rat :=
  let t := s.dropWhile Char.isWhitespace
  let neg : Bool := t.headD (Char.ofNat 0) = Char.ofNat 45
  let t2 := if neg || t.headD (Char.ofNat 0) = Char.ofNat 43 then t.tail else t
  let ip := t2.takeWhile Char.isDigit
  let rest := t2.dropWhile Char.isDigit
  if rest.headD (Char.ofNat 0) = Char.ofNat 46 then
    let fd := rest.tail.takeWhile Char.isDigit
    if ip.isEmpty && fd.isEmpty then 0
    else
      let mag : Int := (natOfDigits (ip ++ fd) : Int)
      mkRat (if neg then -mag else mag) (10 ^ fd.length)
  else
    if ip.isEmpty then 0
    else if neg then (((-(natOfDigits ip : Int)) : Int) : Rat)
    else ((natOfDigits ip : Int) : Rat)

/-- JS `x || d` for an optional number `x`: `undefined` and `0` both fall
back to the default (both are falsy). -/
def jsOrNat (o : Option Nat) (d : Nat) : Nat :=
  match o with
  | none => d
  | some v => if v = 0 then d else v

/-- Lookup in an insertion-ordered association list (JS `Map.prototype.get`). -/
def lookupAssoc (m : List (Str × α)) (k : Str) : Option α :=
  match m with
  | [] => none
  | (k', v) :: rest => if k = k' then some v else lookupAssoc rest k

/-- JS `Map.prototype.set`: replace an existing key in place (keeping its
insertion position) or append a new key at the end. -/
def setAssoc (m : List (Str × α)) (k : Str) (v : α) : List (Str × α) :=
  match m with
  | [] => [(k, v)]
  | (k', v') :: rest => if k = k' then (k, v) :: rest else (k', v') :: setAssoc rest k v

/-- One advertised segment (interface `SegmentInfo`, `src/types.ts`).
Optional TS fields are `Option`; `timeoutOccurred` is only ever read through
`|| false`, so its absent state is modelled as `false`. -/
structure SegmentInfo where
  uri : Str
  duration : Rat
  received : Bool
  receivedAt : Option Nat
  size : Option Nat
  firstSeenAt : Option Nat
  timeoutOccurred : Bool
deriving DecidableEq, Repr

/-- Live tracking state for one playlist (interface `M3u8TrackingInfo`,
`src/types.ts`).  `segments` is the insertion-ordered identity map. -/
structure M3u8TrackingInfo where
  m3u8Uri : Str
  targetDuration : Int
  segments : List (Str × SegmentInfo)
  allSegmentsReceived : Bool
  receivedAt : Nat
  channelId : Str
  timeoutId : Option Int
  lastSegmentReceivedTime : Nat
  segmentArrivalTimeoutBufferMs : Nat
  previousM3u8Updates : List Nat
  timeoutEvents : Nat
  successiveTimeouts : Nat
  maxSuccessiveTimeouts : Nat
  segmentArrivalIntervals : List Int
deriving DecidableEq, Repr

/-- The shared `streamTracker` map, keyed by `channelId/filename`. -/
abbrev Tracker := List (Str × M3u8TrackingInfo)

/-- Directive recognized first by the parser loop. -/
def streamInfTag : Str := str "#EXT-X-STREAM-INF:"

/-- Directive recognized second by the parser loop. -/
def targetDurationTag : Str := str "#EXT-X-TARGETDURATION:"

/-- Directive recognized third by the parser loop. -/
def extinfTag : Str := str "#EXTINF:"

/-- JS `line.split(':')[1]`, the text after the first colon up to the next
colon (`[]` stands for the `undefined` that a colon-free line would give;
both uses are guarded by a `startsWith` check that guarantees a colon). -/
def colonField1 (line : Str) : Str := (jsSplit ':' line).getD 1 []

/-- JS `line.split(':')[1].split(',')[0]`: the duration field of an
`#EXTINF` line. -/
def extinfDurField (line : Str) : Str := (jsSplit ',' (colonField1 line)).getD 0 []

/-- The segment object built by the parser for a playlist entry
(`{ uri, duration, received: false, firstSeenAt: now }`). -/
def mkParsedSegment (uri : Str) (duration : Rat) (now : Nat) : SegmentInfo :=
  { uri := uri, duration := duration, received := false, receivedAt := none,
    size := none, firstSeenAt := some now, timeoutOccurred := false }

/-- The scanning loop of `parseM3u8` (`src/utils/m3u8Parser.ts`): walks the
lines, handling `#EXT-X-STREAM-INF:` (variant entry, consuming the next
line), `#EXT-X-TARGETDURATION:` and `#EXTINF:` (segment entry, consuming the
next line).  Accessing `lines[i + 1]` past the end is a thrown `TypeError`
(`.error ()`), as in the source, which has no bounds check. -/
def parseScan (now : Nat) : Int → List (Str × SegmentInfo) → List Str →
    Except Unit (Int × List (Str × SegmentInfo))
  | td, segs, [] => .ok (td, segs)
  | td, segs, l :: rest =>
    let line := jsTrim l
    if streamInfTag.isPrefixOf line then
      match rest with
      | [] => .error ()
      | next :: rest2 =>
        let variantUri := jsTrim next
        let segs' := if variantUri ≠ [] then
            setAssoc segs variantUri (mkParsedSegment variantUri ((td : Int) : Rat) now)
          else segs
        parseScan now td segs' rest2
    else if targetDurationTag.isPrefixOf line then
      parseScan now (parseIntJS (colonField1 line)) segs rest
    else if extinfTag.isPrefixOf line then
      match rest with
      | [] => .error ()
      | next :: rest2 =>
        let segmentUri := jsTrim next
        parseScan now td
          (setAssoc segs segmentUri (mkParsedSegment segmentUri (parseFloatJS (extinfDurField line)) now))
          rest2
    else parseScan now td segs rest

/-- `parseM3u8` (`src/utils/m3u8Parser.ts`): split the content into lines,
scan them (default target duration 10), and return `null` (`.ok none`) when
no entries were found, else the fresh tracking object of the parse. -/
def parseM3u8 (content m3u8Uri channelId : Str) (now : Nat) :
    Except Unit (Option M3u8TrackingInfo) :=
  match parseScan now 10 [] (jsSplit nlChar content) with
  | .error e => .error e
  | .ok (td, segs) =>
    if segs.length = 0 then .ok none
    else .ok (some
      { m3u8Uri := m3u8Uri, targetDuration := td, segments := segs, channelId := channelId,
        allSegmentsReceived := false, lastSegmentReceivedTime := now,
        segmentArrivalTimeoutBufferMs := 2000, receivedAt := now, timeoutId := none,
        previousM3u8Updates := [now], timeoutEvents := 0, successiveTimeouts := 0,
        maxSuccessiveTimeouts := 0, segmentArrivalIntervals := [] })

/-- The tracking key `channelId/filename` built by `M3u8Handler.handlePut`. -/
def m3u8TrackingKey (channelId filename : Str) : Str :=
  channelId ++ ('/' :: filename)

/-- The merged per-segment state built by `M3u8Handler.handlePut`
(`src/handlers/m3u8Handler.ts`, the per-identity loop): copy
`received`/`receivedAt`/`size`/`firstSeenAt`/`timeoutOccurred` forward from
the existing expectation, with the JS `||` fallbacks of the source
(`received`/`timeoutOccurred` fall back to `false`, `firstSeenAt` to `now`). -/
def mergeSegment (existingSegment : Option SegmentInfo) (parsedSegment : SegmentInfo)
    (now : Nat) : SegmentInfo :=
  { uri := parsedSegment.uri
    duration := parsedSegment.duration
    received := (existingSegment.map (fun s => s.received)).getD false
    receivedAt := existingSegment.bind (fun s => s.receivedAt)
    size := existingSegment.bind (fun s => s.size)
    firstSeenAt := some (jsOrNat (existingSegment.bind (fun s => s.firstSeenAt)) now)
    timeoutOccurred := (existingSegment.map (fun s => s.timeoutOccurred)).getD false }

/-- The replacement revision built by `M3u8Handler.handlePut` on a
successful parse (`src/handlers/m3u8Handler.ts` lines 142-202): counters and
`lastSegmentReceivedTime` carry over from the existing revision with the
source's `|| now` / `|| 0` / `|| []` fallbacks, `previousM3u8Updates` gains
`now` at the front capped at 20 entries, per-segment state is merged
identity by identity over the parsed segments (identities absent from the
parse are dropped), and the arrival deadline
(`now + targetDuration*1000 + buffer`) is armed when the revision is not
fully received and has at least one segment (the source initializes
`timeoutId: undefined` in the literal and assigns the `setTimeout` handle in
that case afterwards; here that is the single conditional `timeoutId`
field). -/
def m3u8MergeRevision (existingTrackingInfo : Option M3u8TrackingInfo)
    (parsedData : M3u8TrackingInfo) (channelId m3u8Uri : Str)
    (segmentArrivalTimeoutBufferMs now : Nat) : M3u8TrackingInfo :=
  let previousM3u8Updates :=
    match existingTrackingInfo with
    | some e => now :: e.previousM3u8Updates
    | none => [now]
  let previousM3u8Updates :=
    if previousM3u8Updates.length > 20 then previousM3u8Updates.take 20
    else previousM3u8Updates
  let segments := parsedData.segments.foldl
    (fun acc p =>
      setAssoc acc p.1
        (mergeSegment (existingTrackingInfo.bind (fun e => lookupAssoc e.segments p.1)) p.2 now))
    []
  { m3u8Uri := m3u8Uri
    targetDuration := parsedData.targetDuration
    segments := segments
    allSegmentsReceived := parsedData.allSegmentsReceived
    receivedAt := now
    channelId := channelId
    timeoutId :=
      if parsedData.allSegmentsReceived = false && segments.length > 0 then
        some ((now : Int) + parsedData.targetDuration * 1000
          + (segmentArrivalTimeoutBufferMs : Int))
      else none
    lastSegmentReceivedTime := jsOrNat (existingTrackingInfo.map (fun e => e.lastSegmentReceivedTime)) now
    segmentArrivalTimeoutBufferMs := segmentArrivalTimeoutBufferMs
    previousM3u8Updates := previousM3u8Updates
    timeoutEvents := jsOrNat (existingTrackingInfo.map (fun e => e.timeoutEvents)) 0
    successiveTimeouts := jsOrNat (existingTrackingInfo.map (fun e => e.successiveTimeouts)) 0
    maxSuccessiveTimeouts := jsOrNat (existingTrackingInfo.map (fun e => e.maxSuccessiveTimeouts)) 0
    segmentArrivalIntervals := (existingTrackingInfo.map (fun e => e.segmentArrivalIntervals)).getD [] }

/-- Tracking-state core of `M3u8Handler.handlePut`
(`src/handlers/m3u8Handler.ts`): parse the body; on a successful parse build
the replacement revision (`m3u8MergeRevision`) from the existing revision
under the tracking key and store it there.  A parse `TypeError` (500) or a
`null` parse leave the tracker untouched; the body check and storage write
precede this core and do not touch the tracker; `clearTimeout` on the
replaced revision's handle acts on the external timer collaborator (the
replaced entry, handle included, leaves the store here). -/
def m3u8HandlePut (tracker : Tracker) (channelId filename m3u8Uri content : Str)
    (segmentArrivalTimeoutBufferMs : Nat) (now : Nat) : Tracker :=
  let m3u8Key := m3u8TrackingKey channelId filename
  match parseM3u8 content m3u8Uri channelId now with
  | .error _ => tracker
  | .ok none => tracker
  | .ok (some parsedData) =>
    setAssoc tracker m3u8Key
      (m3u8MergeRevision (lookupAssoc tracker m3u8Key) parsedData channelId m3u8Uri
        segmentArrivalTimeoutBufferMs now)

/-- JS `array.push(x)` followed by `if (array.length > 20) array.shift()`. -/
def pushCap20 (l : List Int) (x : Int) : List Int :=
  let l' := l ++ [x]
  if l'.length > 20 then l'.drop 1 else l'

/-- The matched-branch mutation of `SegmentHandler.handlePut`
(`src/handlers/segmentHandler.ts` lines 52-106): mark the expectation
received with timestamp and size, reset the successive-timeout streak,
record the arrival interval when a previous reception time is set, bump
`lastSegmentReceivedTime`, then recompute completion and clear the pending
deadline when every expectation is now received. -/
def markSegmentReceived (trackingInfo : M3u8TrackingInfo) (segmentUriRelative : Str)
    (segmentInfo : SegmentInfo) (size : Nat) (now : Nat) : M3u8TrackingInfo :=
  let segmentInfo' := { segmentInfo with received := true, receivedAt := some now, size := some size }
  let segments := setAssoc trackingInfo.segments segmentUriRelative segmentInfo'
  let previousTime := trackingInfo.lastSegmentReceivedTime
  let segmentArrivalIntervals :=
    if previousTime > 0 then
      pushCap20 trackingInfo.segmentArrivalIntervals ((now : Int) - (previousTime : Int))
    else trackingInfo.segmentArrivalIntervals
  let allReceivedForM3u8 := segments.all (fun p => p.2.received)
  let trackingInfo := { trackingInfo with
    segments := segments
    successiveTimeouts := 0
    lastSegmentReceivedTime := now
    segmentArrivalIntervals := segmentArrivalIntervals }
  if allReceivedForM3u8 then
    { trackingInfo with allSegmentsReceived := true, timeoutId := none }
  else trackingInfo

/-- The correlation loop of `SegmentHandler.handlePut`: walk the
`streamTracker` entries in map (insertion) order; the first entry for the
channel that is not complete and whose `segments` map contains the uploaded
identity with `received=false` is mutated and the loop breaks; an entry
containing the identity but already received does *not* break the loop.
Returns `foundSegment` and the updated tracker. -/
def segmentScan (channelId segmentUriRelative : Str) (size now : Nat) :
    Tracker → Bool × Tracker
  | [] => (false, [])
  | (m3u8Key, trackingInfo) :: rest =>
    if trackingInfo.channelId = channelId ∧ trackingInfo.allSegmentsReceived = false
        ∧ (lookupAssoc trackingInfo.segments segmentUriRelative).isSome then
      match lookupAssoc trackingInfo.segments segmentUriRelative with
      | some segmentInfo =>
        if segmentInfo.received = false then
          (true,
            (m3u8Key, markSegmentReceived trackingInfo segmentUriRelative segmentInfo size now)
              :: rest)
        else
          let r := segmentScan channelId segmentUriRelative size now rest
          (r.1, (m3u8Key, trackingInfo) :: r.2)
      | none =>
        let r := segmentScan channelId segmentUriRelative size now rest
        (r.1, (m3u8Key, trackingInfo) :: r.2)
    else
      let r := segmentScan channelId segmentUriRelative size now rest
      (r.1, (m3u8Key, trackingInfo) :: r.2)

/-- Tracking-state core of `SegmentHandler.handlePut`
(`src/handlers/segmentHandler.ts`): correlate the uploaded identity against
the tracker.  The path extraction, body check and storage write precede this
core without touching the tracker; when the scan finds nothing the source
only logs a warning and still answers 200 OK. -/
def segmentHandlePut (tracker : Tracker) (channelId segmentUriRelative : Str)
    (size now : Nat) : Bool × Tracker :=
  segmentScan channelId segmentUriRelative size now tracker

/-- Accumulator of the timeout-evaluation loop of
`M3u8Handler.checkSegmentArrival`: the rebuilt segment map, the three
counters being mutated per missing segment, and the `allReceived` flag. -/
structure CheckAcc where
  segs : List (Str × SegmentInfo)
  timeoutEvents : Nat
  successiveTimeouts : Nat
  maxSuccessiveTimeouts : Nat
  allReceived : Bool
deriving DecidableEq, Repr

/-- One iteration of the `checkSegmentArrival` loop: an unreceived segment is
marked `timeoutOccurred`, both timeout counters are incremented, and the
high-water mark is raised when the streak exceeds it. -/
def checkStep (acc : CheckAcc) (p : Str × SegmentInfo) : CheckAcc :=
  if p.2.received = false then
    let st := acc.successiveTimeouts + 1
    { segs := acc.segs ++ [(p.1, { p.2 with timeoutOccurred := true })]
      timeoutEvents := acc.timeoutEvents + 1
      successiveTimeouts := st
      maxSuccessiveTimeouts := if st > acc.maxSuccessiveTimeouts then st else acc.maxSuccessiveTimeouts
      allReceived := false }
  else { acc with segs := acc.segs ++ [p] }

/-- `M3u8Handler.checkSegmentArrival` (`src/handlers/m3u8Handler.ts` lines
28-66), the deadline-expiry evaluation: a missing tracker entry or an
already-complete revision is a no-op; otherwise scan the segments with
`checkStep`, then either record success (`allSegmentsReceived := true`,
streak reset) when nothing was missing, and clear the timer handle in both
branches. -/
def checkSegmentArrival (tracker : Tracker) (m3u8Key : Str) : Tracker :=
  match lookupAssoc tracker m3u8Key with
  | none => tracker
  | some trackingInfo =>
    if trackingInfo.allSegmentsReceived then tracker
    else
      let acc := trackingInfo.segments.foldl checkStep
        ⟨[], trackingInfo.timeoutEvents, trackingInfo.successiveTimeouts,
          trackingInfo.maxSuccessiveTimeouts, true⟩
      let trackingInfo' := { trackingInfo with
        segments := acc.segs
        timeoutEvents := acc.timeoutEvents
        successiveTimeouts := if acc.allReceived then 0 else acc.successiveTimeouts
        maxSuccessiveTimeouts := acc.maxSuccessiveTimeouts
        allSegmentsReceived := if acc.allReceived then true else trackingInfo.allSegmentsReceived
        timeoutId := none }
      setAssoc tracker m3u8Key trackingInfo'

/-- The square of the `segmentArrivalJitter` computed by
`ReportGenerator.calculateStreamMetrics` (`src/utils/reportGenerator.ts`
lines 86-97): with more than one recorded interval, the mean interval and
the sum of squared differences are computed exactly as in the source and
the variance (their quotient) is returned; otherwise 0.  The final
`Math.sqrt` of the source is not embedded (IEEE-754 square root); since
`x ↦ √x` is injective on the nonnegatives, the reported jitter is determined
by this square, so equalities proved about it settle equalities of the
reported value (up to the float rounding the spec does not model either). -/
def calcSegmentArrivalJitterSq (trackingInfo : M3u8TrackingInfo) : Rat :=
  let arrivalIntervals := trackingInfo.segmentArrivalIntervals
  if arrivalIntervals.length > 1 then
    let meanInterval :=
      (arrivalIntervals.foldl (fun (sum : Rat) (i : Int) => sum + (i : Rat)) 0)
        / (arrivalIntervals.length : Rat)
    let sumSquaredDifferences :=
      arrivalIntervals.foldl
        (fun (sum : Rat) (i : Int) => sum + ((i : Rat) - meanInterval) * ((i : Rat) - meanInterval)) 0
    sumSquaredDifferences / (arrivalIntervals.length : Rat)
  else 0

/-- Population variance, written from the spec's words: the mean squared
deviation from the mean, dividing by the sample count (the spec's population
standard deviation is its square root).  Used as the specification side of
the jitter claim, to be compared with `calcSegmentArrivalJitterSq`. -/
def popVarianceSpec (xs : List Int) : Rat :=
  let mean := (xs.map (fun x : Int => (x : Rat))).sum / (xs.length : Rat)
  ((xs.map (fun x : Int => ((x : Rat) - mean) ^ 2)).sum) / (xs.length : Rat)

/-- The discrete units of work of the engine: a playlist ingest (with the
route parameters already extracted by the HTTP layer), a segment ingest,
and an arrival-deadline firing. -/
inductive Event where
  | m3u8Put (channelId filename m3u8Uri content : Str) (now : Nat)
  | segmentPut (channelId segmentUriRelative : Str) (size : Nat) (now : Nat)
  | deadlineFire (m3u8Key : Str)

/-- Effect of one unit of work on the shared tracker. -/
def applyEvent (bufferMs : Nat) (tracker : Tracker) : Event → Tracker
  | .m3u8Put channelId filename m3u8Uri content now =>
      m3u8HandlePut tracker channelId filename m3u8Uri content bufferMs now
  | .segmentPut channelId segmentUriRelative size now =>
      (segmentHandlePut tracker channelId segmentUriRelative size now).2
  | .deadlineFire m3u8Key => checkSegmentArrival tracker m3u8Key

/-- Run a sequence of units of work, oldest first. -/
def applyEvents (bufferMs : Nat) (tracker : Tracker) (evs : List Event) : Tracker :=
  evs.foldl (applyEvent bufferMs) tracker

/-- The `maxSuccessiveTimeouts` a state exhibits for a tracking key
(0 when the key is not tracked). -/
def maxStreakOf (tracker : Tracker) (k : Str) : Nat :=
  ((lookupAssoc tracker k).map (fun i => i.maxSuccessiveTimeouts)).getD 0

/-- Concrete tracking state used by witness instantiations: one tracked
revision for channel `c` with one received and one outstanding segment and
nonzero timeout counters. -/
def c2Info : M3u8TrackingInfo :=
  ⟨str "/l", 10,
    [(str "a.ts", ⟨str "a.ts", 1, true, some 50, some 4, some 10, false⟩),
     (str "b.ts", ⟨str "b.ts", 1, false, none, none, some 10, false⟩)],
    false, 10, str "c", some 12010, 50, 2000, [10], 3, 1, 2, []⟩

/-- Tracker holding `c2Info` under key `k`. -/
def c2Tracker : Tracker := [(str "k", c2Info)]

/-- Concrete tracking state for correlation witnesses: a single revision of
channel `c`, not complete, whose expectation for `seg.ts` is already
received. -/
def c3Info : M3u8TrackingInfo :=
  ⟨str "/l", 10,
    [(str "seg.ts", ⟨str "seg.ts", 1, true, some 50, some 4, some 10, false⟩),
     (str "b.ts", ⟨str "b.ts", 1, false, none, none, some 10, false⟩)],
    false, 10, str "c", none, 50, 2000, [10], 0, 0, 0, []⟩

/-- Tracker holding `c3Info` under key `k`. -/
def c3Tracker : Tracker := [(str "k", c3Info)]

/-- Playlist ingest of `a.m3u8` for channel `c` at time 100, advertising
`seg.ts` and `other.ts` (counterexample trace for tie-breaking). -/
def c6PutA : Event :=
  .m3u8Put (str "c") (str "a.m3u8") (str "/live/c/a.m3u8")
    (str "#EXTINF:1,\nseg.ts\n#EXTINF:1,\nother.ts") 100

/-- Playlist ingest of `b.m3u8` for channel `c` at time 200, also
advertising `seg.ts` (counterexample trace for tie-breaking). -/
def c6PutB : Event :=
  .m3u8Put (str "c") (str "b.m3u8") (str "/live/c/b.m3u8")
    (str "#EXTINF:1,\nseg.ts\n#EXTINF:1,\nmore.ts") 200

/-- A revision of channel `c` expecting `seg.ts`, not yet received (witness
input for the first-match tie-break). -/
def c6Info : M3u8TrackingInfo :=
  ⟨str "/l", 10, [(str "seg.ts", ⟨str "seg.ts", 1, false, none, none, some 10, false⟩)],
    false, 10, str "c", none, 10, 2000, [10], 0, 0, 0, []⟩

/-- Structure of a playlist's line list as the parser's scan sees it: any
interleaving of lines that are neither `#EXT-X-STREAM-INF:` nor `#EXTINF:`
directives (comments, headers, `#EXT-X-TARGETDURATION:`, blanks) with
per-segment duration directives — an `#EXTINF:` line immediately followed by
its segment identity line.  `PLines es ls` records, in order, the pairs
(duration field of the `#EXTINF:` line, raw identity line) of `ls`. -/
inductive PLines : List (Str × Str) → List Str → Prop where
  | nil : PLines [] []
  | skip (l : Str) {es : List (Str × Str)} {ls : List Str}
      (hstream : streamInfTag.isPrefixOf (jsTrim l) = false)
      (hext : extinfTag.isPrefixOf (jsTrim l) = false)
      (htail : PLines es ls) : PLines es (l :: ls)
  | seg (l u : Str) {es : List (Str × Str)} {ls : List Str}
      (hstream : streamInfTag.isPrefixOf (jsTrim l) = false)
      (htd : targetDurationTag.isPrefixOf (jsTrim l) = false)
      (hext : extinfTag.isPrefixOf (jsTrim l) = true)
      (htail : PLines es ls) :
      PLines ((extinfDurField (jsTrim l), u) :: es) (l :: u :: ls)

/-- Keys of an association list, in insertion order. -/
abbrev keysOf (m : List (Str × α)) : List Str := m.map Prod.fst

theorem setAssoc_cons (a : Str) (b : α) (t : List (Str × α)) (k : Str) (v : α) :
    setAssoc ((a, b) :: t) k v =
      if k = a then (k, v) :: t else (a, b) :: setAssoc t k v := rfl

theorem lookupAssoc_cons (a : Str) (b : α) (t : List (Str × α)) (k : Str) :
    lookupAssoc ((a, b) :: t) k = if k = a then some b else lookupAssoc t k := rfl

theorem lookupAssoc_setAssoc_self (m : List (Str × α)) (k : Str) (v : α) :
    lookupAssoc (setAssoc m k v) k = some v := by
  induction m with
  | nil =>
    show lookupAssoc [(k, v)] k = some v
    rw [lookupAssoc_cons, if_pos rfl]
  | cons hd t ih =>
    obtain ⟨a, b⟩ := hd
    rw [setAssoc_cons]
    by_cases hk : k = a
    · rw [if_pos hk, lookupAssoc_cons, if_pos rfl]
    · rw [if_neg hk, lookupAssoc_cons, if_neg hk, ih]

theorem lookupAssoc_setAssoc_ne (m : List (Str × α)) (k k' : Str) (v : α) (h : k' ≠ k) :
    lookupAssoc (setAssoc m k v) k' = lookupAssoc m k' := by
  induction m with
  | nil =>
    show lookupAssoc [(k, v)] k' = none
    rw [lookupAssoc_cons, if_neg h]
    rfl
  | cons hd t ih =>
    obtain ⟨a, b⟩ := hd
    rw [setAssoc_cons]
    by_cases hk : k = a
    · subst hk
      rw [if_pos rfl, lookupAssoc_cons, lookupAssoc_cons, if_neg h, if_neg h]
    · rw [if_neg hk, lookupAssoc_cons, lookupAssoc_cons, ih]

theorem mem_keysOf_setAssoc (m : List (Str × α)) (k x : Str) (v : α) :
    x ∈ keysOf (setAssoc m k v) ↔ x ∈ keysOf m ∨ x = k := by
  induction m with
  | nil => simp [setAssoc]
  | cons hd t ih =>
    obtain ⟨a, b⟩ := hd
    rw [setAssoc_cons]
    by_cases hk : k = a
    · subst hk
      rw [if_pos rfl]
      simp only [keysOf, List.map_cons, List.mem_cons]
      tauto
    · rw [if_neg hk]
      simp only [keysOf, List.map_cons, List.mem_cons] at *
      tauto

theorem length_setAssoc_of_not_mem (m : List (Str × α)) (k : Str) (v : α)
    (h : k ∉ keysOf m) : (setAssoc m k v).length = m.length + 1 := by
  induction m with
  | nil => rfl
  | cons hd t ih =>
    obtain ⟨a, b⟩ := hd
    simp only [keysOf, List.map_cons, List.mem_cons] at h
    push_neg at h
    rw [setAssoc_cons, if_neg h.1, List.length_cons, List.length_cons, ih h.2]

theorem nodup_keysOf_setAssoc (m : List (Str × α)) (k : Str) (v : α)
    (h : (keysOf m).Nodup) : (keysOf (setAssoc m k v)).Nodup := by
  induction m with
  | nil => simp [setAssoc]
  | cons hd t ih =>
    obtain ⟨a, b⟩ := hd
    simp only [keysOf, List.map_cons, List.nodup_cons] at h
    rw [setAssoc_cons]
    by_cases hk : k = a
    · subst hk
      rw [if_pos rfl]
      simp only [keysOf, List.map_cons, List.nodup_cons]
      exact h
    · rw [if_neg hk]
      simp only [keysOf, List.map_cons, List.nodup_cons]
      refine ⟨fun hmem => ?_, ih h.2⟩
      rcases (mem_keysOf_setAssoc t k a v).mp hmem with hmem | hmem
      · exact h.1 hmem
      · exact hk hmem.symm

theorem lookupAssoc_eq_none_iff (m : List (Str × α)) (k : Str) :
    lookupAssoc m k = none ↔ k ∉ keysOf m := by
  induction m with
  | nil => simp [lookupAssoc]
  | cons hd t ih =>
    obtain ⟨a, b⟩ := hd
    rw [lookupAssoc_cons]
    by_cases hk : k = a
    · subst hk
      rw [if_pos rfl]
      constructor
      · intro h
        exact Option.noConfusion h
      · intro h
        exact absurd (List.mem_cons_self k (List.map Prod.fst t)) h
    · rw [if_neg hk, ih]
      constructor
      · intro h hmem
        rcases List.mem_cons.mp hmem with h1 | h1
        · exact hk h1
        · exact h h1
      · intro h hmem
        exact h (List.mem_cons_of_mem _ hmem)

theorem mem_of_lookupAssoc_eq_some (m : List (Str × α)) (k : Str) (v : α)
    (h : lookupAssoc m k = some v) : (k, v) ∈ m := by
  induction m with
  | nil => simp [lookupAssoc] at h
  | cons hd t ih =>
    obtain ⟨a, b⟩ := hd
    rw [lookupAssoc_cons] at h
    by_cases hk : k = a
    · rw [if_pos hk] at h
      obtain rfl := Option.some.inj h
      rw [hk]
      exact List.mem_cons_self _ _
    · rw [if_neg hk] at h
      exact List.mem_cons_of_mem _ (ih h)

theorem lookupAssoc_foldl_setAssoc_of_not_mem {σ : Type} (key : σ → Str) (val : σ → α)
    (l : List σ) (init : List (Str × α)) (k : Str) (h : k ∉ l.map key) :
    lookupAssoc (l.foldl (fun acc q => setAssoc acc (key q) (val q)) init) k =
      lookupAssoc init k := by
  induction l generalizing init with
  | nil => rfl
  | cons a t ih =>
    simp only [List.map_cons, List.mem_cons] at h
    push_neg at h
    rw [List.foldl_cons, ih (setAssoc init (key a) (val a)) h.2,
      lookupAssoc_setAssoc_ne init (key a) k (val a) h.1]

theorem lookupAssoc_foldl_setAssoc_of_mem {σ : Type} (key : σ → Str) (val : σ → α)
    (l : List σ) (init : List (Str × α)) (hnd : (l.map key).Nodup)
    (p : σ) (hp : p ∈ l) :
    lookupAssoc (l.foldl (fun acc q => setAssoc acc (key q) (val q)) init) (key p) =
      some (val p) := by
  induction l generalizing init with
  | nil => simp at hp
  | cons a t ih =>
    simp only [List.map_cons, List.nodup_cons] at hnd
    rw [List.foldl_cons]
    rcases List.mem_cons.mp hp with hp2 | hp2
    · subst hp2
      rw [lookupAssoc_foldl_setAssoc_of_not_mem key val t _ _ hnd.1]
      exact lookupAssoc_setAssoc_self _ _ _
    · exact ih (setAssoc init (key a) (val a)) hnd.2 hp2

theorem length_foldl_setAssoc {σ : Type} (key : σ → Str) (val : σ → α)
    (l : List σ) (init : List (Str × α)) (hnd : (l.map key).Nodup)
    (hdisj : ∀ p ∈ l, key p ∉ keysOf init) :
    (l.foldl (fun acc q => setAssoc acc (key q) (val q)) init).length =
      init.length + l.length := by
  induction l generalizing init with
  | nil => rfl
  | cons a t ih =>
    simp only [List.map_cons, List.nodup_cons] at hnd
    rw [List.foldl_cons, List.length_cons,
      ih (setAssoc init (key a) (val a)) hnd.2 ?_,
      length_setAssoc_of_not_mem init (key a) (val a) (hdisj a (List.mem_cons_self _ _))]
    · omega
    · intro p hp hmem
      rcases (mem_keysOf_setAssoc init (key a) (key p) (val a)).mp hmem with hmem | hmem
      · exact hdisj p (List.mem_cons_of_mem _ hp) hmem
      · exact hnd.1 (hmem ▸ List.mem_map_of_mem key hp)

theorem parseScan_nodup_aux (now : Nat) (n : Nat) :
    ∀ (ls : List Str), ls.length ≤ n → ∀ (td : Int) segs td' segs',
      parseScan now td segs ls = .ok (td', segs') →
      (keysOf segs).Nodup → (keysOf segs').Nodup := by
  induction n with
  | zero =>
    intro ls hlen td segs td' segs' h hnd
    obtain rfl := List.length_eq_zero.mp (Nat.le_zero.mp hlen)
    simp only [parseScan, Except.ok.injEq, Prod.mk.injEq] at h
    obtain ⟨rfl, rfl⟩ := h
    exact hnd
  | succ n ih =>
    intro ls hlen td segs td' segs' h hnd
    cases ls with
    | nil =>
      simp only [parseScan, Except.ok.injEq, Prod.mk.injEq] at h
      obtain ⟨rfl, rfl⟩ := h
      exact hnd
    | cons l rest =>
      simp only [List.length_cons] at hlen
      cases rest with
      | nil =>
        simp only [parseScan] at h
        split at h
        · cases h
        · split at h
          · exact ih [] (by simp) _ _ _ _ h hnd
          · split at h
            · cases h
            · exact ih [] (by simp) _ _ _ _ h hnd
      | cons r rs =>
        simp only [List.length_cons] at hlen
        simp only [parseScan] at h
        split at h
        · refine ih rs (by omega) _ _ _ _ h ?_
          split
          · exact nodup_keysOf_setAssoc _ _ _ hnd
          · exact hnd
        · split at h
          · refine ih (r :: rs) (by simp only [List.length_cons]; omega) _ _ _ _ h hnd
          · split at h
            · exact ih rs (by omega) _ _ _ _ h (nodup_keysOf_setAssoc _ _ _ hnd)
            · exact ih (r :: rs) (by simp only [List.length_cons]; omega) _ _ _ _ h hnd

theorem parseScan_nodup (now : Nat) (td : Int) (segs : List (Str × SegmentInfo)) (ls : List Str)
    (td' : Int) (segs' : List (Str × SegmentInfo))
    (h : parseScan now td segs ls = .ok (td', segs'))
    (hnd : (keysOf segs).Nodup) : (keysOf segs').Nodup :=
  parseScan_nodup_aux now ls.length ls le_rfl td segs td' segs' h hnd

theorem parseM3u8_segments_eq (content m3u8Uri channelId : Str) (now : Nat)
    (p : M3u8TrackingInfo) (h : parseM3u8 content m3u8Uri channelId now = .ok (some p)) :
    ∃ td, parseScan now 10 [] (jsSplit nlChar content) = .ok (td, p.segments) := by
  rw [parseM3u8] at h
  cases hscan : parseScan now 10 [] (jsSplit nlChar content) with
  | error e => rw [hscan] at h; cases h
  | ok v =>
    obtain ⟨td, segs⟩ := v
    rw [hscan] at h
    by_cases hz : segs.length = 0
    · simp [hz] at h
    · simp only [if_neg hz, Except.ok.injEq, Option.some.injEq] at h
      exact ⟨td, by rw [← h]⟩

theorem parseM3u8_segments_nodup (content m3u8Uri channelId : Str) (now : Nat)
    (p : M3u8TrackingInfo) (h : parseM3u8 content m3u8Uri channelId now = .ok (some p)) :
    (keysOf p.segments).Nodup := by
  obtain ⟨td, hscan⟩ := parseM3u8_segments_eq content m3u8Uri channelId now p h
  exact parseScan_nodup now 10 [] _ td p.segments hscan (by simp [keysOf])

theorem m3u8MergeRevision_segments (existing : Option M3u8TrackingInfo)
    (parsedData : M3u8TrackingInfo) (channelId m3u8Uri : Str) (buf now : Nat) :
    (m3u8MergeRevision existing parsedData channelId m3u8Uri buf now).segments =
      parsedData.segments.foldl
        (fun acc p => setAssoc acc p.1
          (mergeSegment (existing.bind (fun e => lookupAssoc e.segments p.1)) p.2 now)) [] := rfl

theorem m3u8MergeRevision_lastSegmentReceivedTime (existing : Option M3u8TrackingInfo)
    (parsedData : M3u8TrackingInfo) (channelId m3u8Uri : Str) (buf now : Nat) :
    (m3u8MergeRevision existing parsedData channelId m3u8Uri buf now).lastSegmentReceivedTime =
      jsOrNat (existing.map (fun e => e.lastSegmentReceivedTime)) now := rfl

theorem m3u8MergeRevision_maxSuccessiveTimeouts (existing : Option M3u8TrackingInfo)
    (parsedData : M3u8TrackingInfo) (channelId m3u8Uri : Str) (buf now : Nat) :
    (m3u8MergeRevision existing parsedData channelId m3u8Uri buf now).maxSuccessiveTimeouts =
      jsOrNat (existing.map (fun e => e.maxSuccessiveTimeouts)) 0 := rfl

/-- Claim C1 (confirmed).  For every playlist re-ingest of a tracking key that
already has a stored revision: every identity present both in the parse and
in the existing revision keeps the existing `received`, `receivedAt`, `size`,
`timeoutOccurred` and `firstSeenAt` values (in particular a received segment
stays received with its original `receivedAt`); identities not previously
seen get `firstSeenAt = now`; identities absent from the new parse are
absent from the stored revision afterwards.  The preservation of
`firstSeenAt` is stated for a present, positive stored value
(`es.firstSeenAt = some t`, `0 < t`): every creation site in the engine sets
`firstSeenAt` to a `Date.now()` timestamp, so this holds in every reachable
state; the source reads it back through `existingSegment?.firstSeenAt || now`. -/
theorem c1_reingest_merge (tracker : Tracker) (channelId filename m3u8Uri content : Str)
    (bufferMs now : Nat) (parsedData existing : M3u8TrackingInfo)
    (hp : parseM3u8 content m3u8Uri channelId now = .ok (some parsedData))
    (he : lookupAssoc tracker (m3u8TrackingKey channelId filename) = some existing) :
    ∃ info, lookupAssoc
        (m3u8HandlePut tracker channelId filename m3u8Uri content bufferMs now)
        (m3u8TrackingKey channelId filename) = some info ∧
      (∀ id ps es t, lookupAssoc parsedData.segments id = some ps →
        lookupAssoc existing.segments id = some es →
        es.firstSeenAt = some t → 0 < t →
        lookupAssoc info.segments id = some
          { uri := ps.uri, duration := ps.duration, received := es.received,
            receivedAt := es.receivedAt, size := es.size, firstSeenAt := es.firstSeenAt,
            timeoutOccurred := es.timeoutOccurred }) ∧
      (∀ id ps, lookupAssoc parsedData.segments id = some ps →
        lookupAssoc existing.segments id = none →
        lookupAssoc info.segments id = some
          { uri := ps.uri, duration := ps.duration, received := false, receivedAt := none,
            size := none, firstSeenAt := some now, timeoutOccurred := false }) ∧
      (∀ id, lookupAssoc parsedData.segments id = none →
        lookupAssoc info.segments id = none) := by
  have hnd := parseM3u8_segments_nodup content m3u8Uri channelId now parsedData hp
  have hput : m3u8HandlePut tracker channelId filename m3u8Uri content bufferMs now =
      setAssoc tracker (m3u8TrackingKey channelId filename)
        (m3u8MergeRevision (some existing) parsedData channelId m3u8Uri bufferMs now) := by
    simp only [m3u8HandlePut, hp, he]
  refine ⟨m3u8MergeRevision (some existing) parsedData channelId m3u8Uri bufferMs now,
    ?_, ?_, ?_, ?_⟩
  · rw [hput]
    exact lookupAssoc_setAssoc_self _ _ _
  · intro id ps es t hps hes hfs ht
    rw [m3u8MergeRevision_segments]
    have hmem := mem_of_lookupAssoc_eq_some _ _ _ hps
    have h2 := lookupAssoc_foldl_setAssoc_of_mem (fun q : Str × SegmentInfo => q.1)
      (fun q : Str × SegmentInfo =>
        mergeSegment ((some existing).bind (fun e => lookupAssoc e.segments q.1)) q.2 now)
      parsedData.segments [] hnd (id, ps) hmem
    rw [h2]
    have hbind : ((some existing).bind (fun e => lookupAssoc e.segments id)) = some es := hes
    have ht0 : t ≠ 0 := Nat.pos_iff_ne_zero.mp ht
    simp only [hbind, mergeSegment, Option.map_some', Option.getD_some, Option.some_bind,
      Option.some.injEq]
    rw [hfs]
    simp [jsOrNat, ht0]
  · intro id ps hps hes
    rw [m3u8MergeRevision_segments]
    have hmem := mem_of_lookupAssoc_eq_some _ _ _ hps
    have h2 := lookupAssoc_foldl_setAssoc_of_mem (fun q : Str × SegmentInfo => q.1)
      (fun q : Str × SegmentInfo =>
        mergeSegment ((some existing).bind (fun e => lookupAssoc e.segments q.1)) q.2 now)
      parsedData.segments [] hnd (id, ps) hmem
    rw [h2]
    have hbind : ((some existing).bind (fun e => lookupAssoc e.segments id)) = none := hes
    simp [hbind, mergeSegment, jsOrNat]
  · intro id hps
    rw [m3u8MergeRevision_segments]
    have hnm : id ∉ parsedData.segments.map (fun q : Str × SegmentInfo => q.1) :=
      (lookupAssoc_eq_none_iff _ _).mp hps
    rw [lookupAssoc_foldl_setAssoc_of_not_mem (fun q : Str × SegmentInfo => q.1)
      (fun q : Str × SegmentInfo =>
        mergeSegment ((some existing).bind (fun e => lookupAssoc e.segments q.1)) q.2 now)
      parsedData.segments [] id hnm]
    rfl

theorem c1_reingest_merge_witness :
    parseM3u8 (str "#EXTINF:1,\nseg.ts\n#EXTINF:2,\nnew.ts") (str "/l") (str "c") 400 =
      .ok (some ⟨str "/l", 10,
        [(str "seg.ts", ⟨str "seg.ts", 1, false, none, none, some 400, false⟩),
         (str "new.ts", ⟨str "new.ts", 2, false, none, none, some 400, false⟩)],
        false, 400, str "c", none, 400, 2000, [400], 0, 0, 0, []⟩) ∧
    lookupAssoc [(str "c/p.m3u8",
        (⟨str "/l", 10, [(str "seg.ts", ⟨str "seg.ts", 1, true, some 150, some 9, some 100, false⟩)],
          false, 100, str "c", none, 150, 2000, [100], 0, 0, 0, []⟩ : M3u8TrackingInfo))]
      (m3u8TrackingKey (str "c") (str "p.m3u8")) =
      some ⟨str "/l", 10, [(str "seg.ts", ⟨str "seg.ts", 1, true, some 150, some 9, some 100, false⟩)],
        false, 100, str "c", none, 150, 2000, [100], 0, 0, 0, []⟩ ∧
    (∃ info, lookupAssoc
        (m3u8HandlePut [(str "c/p.m3u8",
          (⟨str "/l", 10, [(str "seg.ts", ⟨str "seg.ts", 1, true, some 150, some 9, some 100, false⟩)],
            false, 100, str "c", none, 150, 2000, [100], 0, 0, 0, []⟩ : M3u8TrackingInfo))]
          (str "c") (str "p.m3u8") (str "/l") (str "#EXTINF:1,\nseg.ts\n#EXTINF:2,\nnew.ts") 0 400)
        (m3u8TrackingKey (str "c") (str "p.m3u8")) = some info ∧
      (∀ id ps es t, lookupAssoc
          ([(str "seg.ts", ⟨str "seg.ts", 1, false, none, none, some 400, false⟩),
            (str "new.ts", ⟨str "new.ts", 2, false, none, none, some 400, false⟩)] :
            List (Str × SegmentInfo)) id = some ps →
        lookupAssoc ([(str "seg.ts", ⟨str "seg.ts", 1, true, some 150, some 9, some 100, false⟩)] :
            List (Str × SegmentInfo)) id = some es →
        es.firstSeenAt = some t → 0 < t →
        lookupAssoc info.segments id = some
          { uri := ps.uri, duration := ps.duration, received := es.received,
            receivedAt := es.receivedAt, size := es.size, firstSeenAt := es.firstSeenAt,
            timeoutOccurred := es.timeoutOccurred }) ∧
      (∀ id ps, lookupAssoc
          ([(str "seg.ts", ⟨str "seg.ts", 1, false, none, none, some 400, false⟩),
            (str "new.ts", ⟨str "new.ts", 2, false, none, none, some 400, false⟩)] :
            List (Str × SegmentInfo)) id = some ps →
        lookupAssoc ([(str "seg.ts", ⟨str "seg.ts", 1, true, some 150, some 9, some 100, false⟩)] :
            List (Str × SegmentInfo)) id = none →
        lookupAssoc info.segments id = some
          { uri := ps.uri, duration := ps.duration, received := false, receivedAt := none,
            size := none, firstSeenAt := some 400, timeoutOccurred := false }) ∧
      (∀ id, lookupAssoc
          ([(str "seg.ts", ⟨str "seg.ts", 1, false, none, none, some 400, false⟩),
            (str "new.ts", ⟨str "new.ts", 2, false, none, none, some 400, false⟩)] :
            List (Str × SegmentInfo)) id = none →
        lookupAssoc info.segments id = none)) :=
  ⟨by decide, by decide,
    c1_reingest_merge
      [(str "c/p.m3u8",
        (⟨str "/l", 10, [(str "seg.ts", ⟨str "seg.ts", 1, true, some 150, some 9, some 100, false⟩)],
          false, 100, str "c", none, 150, 2000, [100], 0, 0, 0, []⟩ : M3u8TrackingInfo))]
      (str "c") (str "p.m3u8") (str "/l")
      (str "#EXTINF:1,\nseg.ts\n#EXTINF:2,\nnew.ts") 0 400
      ⟨str "/l", 10,
        [(str "seg.ts", ⟨str "seg.ts", 1, false, none, none, some 400, false⟩),
         (str "new.ts", ⟨str "new.ts", 2, false, none, none, some 400, false⟩)],
        false, 400, str "c", none, 400, 2000, [400], 0, 0, 0, []⟩
      ⟨str "/l", 10, [(str "seg.ts", ⟨str "seg.ts", 1, true, some 150, some 9, some 100, false⟩)],
        false, 100, str "c", none, 150, 2000, [100], 0, 0, 0, []⟩
      (by decide) (by decide)⟩

theorem checkStep_foldl (l : List (Str × SegmentInfo)) (acc : CheckAcc) :
    l.foldl checkStep acc =
      { segs := acc.segs ++ l.map (fun p => if p.2.received = false
            then (p.1, { p.2 with timeoutOccurred := true }) else p)
        timeoutEvents := acc.timeoutEvents + (l.filter (fun p => p.2.received = false)).length
        successiveTimeouts :=
          acc.successiveTimeouts + (l.filter (fun p => p.2.received = false)).length
        maxSuccessiveTimeouts :=
          if (l.filter (fun p => p.2.received = false)).length = 0 then acc.maxSuccessiveTimeouts
          else max acc.maxSuccessiveTimeouts
            (acc.successiveTimeouts + (l.filter (fun p => p.2.received = false)).length)
        allReceived := acc.allReceived
          && decide ((l.filter (fun p => p.2.received = false)).length = 0) } := by
  induction l generalizing acc with
  | nil => simp
  | cons p t ih =>
    rw [List.foldl_cons, ih]
    by_cases hr : p.2.received = false
    · have hf : List.filter (fun q => decide (q.2.received = false)) (p :: t)
          = p :: List.filter (fun q => decide (q.2.received = false)) t := by
        simp [List.filter_cons, hr]
      have hne : (List.filter (fun q => decide (q.2.received = false)) t).length + 1 ≠ 0 := by
        omega
      simp only [checkStep, if_pos hr, hf, List.map_cons, List.length_cons, CheckAcc.mk.injEq,
        if_neg hne]
      refine ⟨?_, by omega, by omega, ?_, ?_⟩
      · simp only [List.append_assoc, List.singleton_append, if_pos hr]
      · split
        · split <;> omega
        · split <;> omega
      · have h0 : decide ((List.filter (fun q => decide (q.2.received = false)) t).length + 1 = 0)
            = false := decide_eq_false hne
        rw [Bool.false_and, h0, Bool.and_false]
    · have hf : List.filter (fun q => decide (q.2.received = false)) (p :: t)
          = List.filter (fun q => decide (q.2.received = false)) t := by
        simp [List.filter_cons, hr]
      simp only [checkStep, if_neg hr, hf, List.map_cons, CheckAcc.mk.injEq]
      refine ⟨?_, ?_, ?_, ?_, ?_⟩
      · simp only [List.append_assoc, List.singleton_append, if_neg hr]
      all_goals trivial

theorem checkSegmentArrival_of_lookup_false (tracker : Tracker) (m3u8Key : Str)
    (info : M3u8TrackingInfo) (hlk : lookupAssoc tracker m3u8Key = some info)
    (hall : info.allSegmentsReceived = false) :
    checkSegmentArrival tracker m3u8Key = setAssoc tracker m3u8Key
      { info with
        segments := info.segments.map (fun p => if p.2.received = false
          then (p.1, { p.2 with timeoutOccurred := true }) else p)
        timeoutEvents := info.timeoutEvents
          + (info.segments.filter (fun p => p.2.received = false)).length
        successiveTimeouts :=
          if (info.segments.filter (fun p => p.2.received = false)).length = 0 then 0
          else info.successiveTimeouts
            + (info.segments.filter (fun p => p.2.received = false)).length
        maxSuccessiveTimeouts :=
          if (info.segments.filter (fun p => p.2.received = false)).length = 0 then
            info.maxSuccessiveTimeouts
          else max info.maxSuccessiveTimeouts
            (info.successiveTimeouts
              + (info.segments.filter (fun p => p.2.received = false)).length)
        allSegmentsReceived :=
          if (info.segments.filter (fun p => p.2.received = false)).length = 0 then true
          else info.allSegmentsReceived
        timeoutId := none } := by
  simp only [checkSegmentArrival, hlk, hall, Bool.false_eq_true, if_false]
  rw [checkStep_foldl]
  congr 1
  simp only [List.nil_append, Bool.true_and, decide_eq_true_eq]

/-- Claim C2 (confirmed).  Firing the arrival deadline on a tracked revision
that is not yet `allSegmentsReceived` marks every still-unreceived segment
`timeoutOccurred`, adds one per such segment to `timeoutEvents` and to
`successiveTimeouts`, and raises `maxSuccessiveTimeouts` to the streak when
the streak exceeds it (`max` of the old high-water mark and the new streak);
if instead every segment turns out received, the revision is marked
`allSegmentsReceived` and the streak resets to 0; in both branches the
pending timer handle is cleared; firing against an already-complete revision
is a no-op on the tracker. -/
theorem c2_deadline_evaluation (tracker : Tracker) (m3u8Key : Str)
    (info : M3u8TrackingInfo) (hlk : lookupAssoc tracker m3u8Key = some info) :
    (info.allSegmentsReceived = true → checkSegmentArrival tracker m3u8Key = tracker) ∧
    (info.allSegmentsReceived = false →
      ∃ info', lookupAssoc (checkSegmentArrival tracker m3u8Key) m3u8Key = some info' ∧
        info'.segments = info.segments.map (fun p => if p.2.received = false
          then (p.1, { p.2 with timeoutOccurred := true }) else p) ∧
        info'.timeoutEvents = info.timeoutEvents
          + (info.segments.filter (fun p => p.2.received = false)).length ∧
        (0 < (info.segments.filter (fun p => p.2.received = false)).length →
          info'.successiveTimeouts = info.successiveTimeouts
            + (info.segments.filter (fun p => p.2.received = false)).length ∧
          info'.maxSuccessiveTimeouts = max info.maxSuccessiveTimeouts
            (info.successiveTimeouts
              + (info.segments.filter (fun p => p.2.received = false)).length) ∧
          info'.allSegmentsReceived = false) ∧
        ((info.segments.filter (fun p => p.2.received = false)).length = 0 →
          info'.allSegmentsReceived = true ∧ info'.successiveTimeouts = 0 ∧
          info'.maxSuccessiveTimeouts = info.maxSuccessiveTimeouts) ∧
        info'.timeoutId = none) := by
  constructor
  · intro hall
    simp only [checkSegmentArrival, hlk, hall, if_true]
  · intro hall
    rw [checkSegmentArrival_of_lookup_false tracker m3u8Key info hlk hall]
    refine ⟨_, lookupAssoc_setAssoc_self _ _ _, rfl, rfl, ?_, ?_, rfl⟩
    · intro hm
      have hne : (info.segments.filter (fun p => p.2.received = false)).length ≠ 0 := by omega
      exact ⟨by simp only [if_neg hne], by simp only [if_neg hne], by simp only [if_neg hne, hall]⟩
    · intro h0
      exact ⟨by simp only [if_pos h0], by simp only [if_pos h0], by simp only [if_pos h0]⟩


theorem c2_deadline_evaluation_witness :
    lookupAssoc c2Tracker (str "k") = some c2Info ∧
    ((c2Info.allSegmentsReceived = true →
        checkSegmentArrival c2Tracker (str "k") = c2Tracker) ∧
     (c2Info.allSegmentsReceived = false →
      ∃ info', lookupAssoc (checkSegmentArrival c2Tracker (str "k")) (str "k") = some info' ∧
        info'.segments = c2Info.segments.map (fun p => if p.2.received = false
          then (p.1, { p.2 with timeoutOccurred := true }) else p) ∧
        info'.timeoutEvents = c2Info.timeoutEvents
          + (c2Info.segments.filter (fun p => p.2.received = false)).length ∧
        (0 < (c2Info.segments.filter (fun p => p.2.received = false)).length →
          info'.successiveTimeouts = c2Info.successiveTimeouts
            + (c2Info.segments.filter (fun p => p.2.received = false)).length ∧
          info'.maxSuccessiveTimeouts = max c2Info.maxSuccessiveTimeouts
            (c2Info.successiveTimeouts
              + (c2Info.segments.filter (fun p => p.2.received = false)).length) ∧
          info'.allSegmentsReceived = false) ∧
        ((c2Info.segments.filter (fun p => p.2.received = false)).length = 0 →
          info'.allSegmentsReceived = true ∧ info'.successiveTimeouts = 0 ∧
          info'.maxSuccessiveTimeouts = c2Info.maxSuccessiveTimeouts) ∧
        info'.timeoutId = none)) :=
  ⟨by decide, c2_deadline_evaluation c2Tracker (str "k") c2Info (by decide)⟩

/-- Claim C3 (confirmed).  When every expectation for the uploaded identity —
in every revision of the channel that is not yet complete and contains the
identity — is already `received = true` (the state after a first successful
correlation when only such revisions expect it), a repeated segment ingest
of that identity is a no-op: the scan reports `foundSegment = false` and the
tracker, hence every count, timestamp, interval list and timeout counter in
it, is returned unchanged (the source answers 200 OK on this path). -/
theorem c3_second_ingest_noop (tracker : Tracker) (channelId segmentUriRelative : Str)
    (size now : Nat)
    (h : ∀ k i, (k, i) ∈ tracker → i.channelId = channelId →
      i.allSegmentsReceived = false →
      ∀ si, lookupAssoc i.segments segmentUriRelative = some si → si.received = true) :
    segmentHandlePut tracker channelId segmentUriRelative size now = (false, tracker) := by
  induction tracker with
  | nil => rfl
  | cons hd t ih =>
    obtain ⟨k, i⟩ := hd
    have ht : segmentScan channelId segmentUriRelative size now t = (false, t) :=
      ih (fun k' i' hm => h k' i' (List.mem_cons_of_mem _ hm))
    simp only [segmentHandlePut, segmentScan] at ht ⊢
    split
    · next hcond =>
      obtain ⟨hch, hall, hsome⟩ := hcond
      cases hsi : lookupAssoc i.segments segmentUriRelative with
      | none => rw [hsi] at hsome; cases hsome
      | some si =>
        have hrec : si.received = true :=
          h k i (List.mem_cons_self _ _) hch hall si hsi
        simp [hrec, ht]
    · simp [ht]

theorem c3_second_ingest_noop_witness :
    (∀ k i, (k, i) ∈ c3Tracker → i.channelId = str "c" →
      i.allSegmentsReceived = false →
      ∀ si, lookupAssoc i.segments (str "seg.ts") = some si → si.received = true) ∧
    segmentHandlePut c3Tracker (str "c") (str "seg.ts") 7 99 = (false, c3Tracker) := by
  have h : ∀ k i, (k, i) ∈ c3Tracker → i.channelId = str "c" →
      i.allSegmentsReceived = false →
      ∀ si, lookupAssoc i.segments (str "seg.ts") = some si → si.received = true := by
    intro k i hm hch hall si hsi
    have hpair : k = str "k" ∧ i = c3Info := by simpa [c3Tracker] using hm
    obtain ⟨rfl, rfl⟩ := hpair
    rw [show lookupAssoc c3Info.segments (str "seg.ts") =
      some ⟨str "seg.ts", 1, true, some 50, some 4, some 10, false⟩ from by decide] at hsi
    cases hsi
    rfl
  exact ⟨h, c3_second_ingest_noop c3Tracker (str "c") (str "seg.ts") 7 99 h⟩

/-- Claim C4 (confirmed).  A segment ingest for which no expectation matches —
no revision of the channel is simultaneously tracking the channel, not yet
complete, and expecting the uploaded identity with `received = false` — has
no effect on the tracking statistics: the scan returns `foundSegment = false`
with the tracker unchanged, so no segments map, timeout counter,
`lastSegmentReceivedTime` or `arrivalIntervals` changes.  In the source the
uploaded bytes were already persisted by the storage collaborator before
the scan, and the handler still answers 200 OK (the unmatched case is only
logged), so the outcome is not an error. -/
theorem c4_nomatch_statistics_unaffected (tracker : Tracker)
    (channelId segmentUriRelative : Str) (size now : Nat)
    (h : ∀ k i, (k, i) ∈ tracker →
      ¬(i.channelId = channelId ∧ i.allSegmentsReceived = false ∧
        ∃ si, lookupAssoc i.segments segmentUriRelative = some si ∧ si.received = false)) :
    segmentHandlePut tracker channelId segmentUriRelative size now = (false, tracker) := by
  induction tracker with
  | nil => rfl
  | cons hd t ih =>
    obtain ⟨k, i⟩ := hd
    have ht : segmentScan channelId segmentUriRelative size now t = (false, t) :=
      ih (fun k' i' hm => h k' i' (List.mem_cons_of_mem _ hm))
    simp only [segmentHandlePut, segmentScan] at ht ⊢
    split
    · next hcond =>
      obtain ⟨hch, hall, hsome⟩ := hcond
      cases hsi : lookupAssoc i.segments segmentUriRelative with
      | none => rw [hsi] at hsome; cases hsome
      | some si =>
        have hrec : si.received = true := by
          by_contra hc
          exact h k i (List.mem_cons_self _ _)
            ⟨hch, hall, si, hsi, by revert hc; cases si.received <;> simp⟩
        simp [hrec, ht]
    · simp [ht]

theorem c4_nomatch_statistics_unaffected_witness :
    (∀ k i, (k, i) ∈ c3Tracker →
      ¬(i.channelId = str "c" ∧ i.allSegmentsReceived = false ∧
        ∃ si, lookupAssoc i.segments (str "zz.ts") = some si ∧ si.received = false)) ∧
    segmentHandlePut c3Tracker (str "c") (str "zz.ts") 7 99 = (false, c3Tracker) := by
  have h : ∀ k i, (k, i) ∈ c3Tracker →
      ¬(i.channelId = str "c" ∧ i.allSegmentsReceived = false ∧
        ∃ si, lookupAssoc i.segments (str "zz.ts") = some si ∧ si.received = false) := by
    intro k i hm hc
    have hpair : k = str "k" ∧ i = c3Info := by simpa [c3Tracker] using hm
    obtain ⟨rfl, rfl⟩ := hpair
    obtain ⟨-, -, si, hsi, -⟩ := hc
    rw [show lookupAssoc c3Info.segments (str "zz.ts") = none from by decide] at hsi
    cases hsi
  exact ⟨h, c4_nomatch_statistics_unaffected c3Tracker (str "c") (str "zz.ts") 7 99 h⟩

/-- Claim C10 (confirmed).  A single segment ingest mutates at most one entry
of the stream tracker: the key set (in order) is unchanged, and there is a
single key `k0` — the matched entry's, or an arbitrary key when nothing
matched — outside of which every tracking entry is looked up unchanged. -/
theorem c10_segment_ingest_frame (tracker : Tracker) (channelId segmentUriRelative : Str)
    (size now : Nat) :
    (segmentHandlePut tracker channelId segmentUriRelative size now).2.map Prod.fst =
      tracker.map Prod.fst ∧
    ∃ k0, ∀ k, k ≠ k0 →
      lookupAssoc (segmentHandlePut tracker channelId segmentUriRelative size now).2 k =
        lookupAssoc tracker k := by
  induction tracker with
  | nil => exact ⟨rfl, [], fun k _ => rfl⟩
  | cons hd t ih =>
    obtain ⟨k, i⟩ := hd
    simp only [segmentHandlePut] at ih ⊢
    obtain ⟨ihkeys, k0, ihframe⟩ := ih
    simp only [segmentScan]
    split
    · cases hsi : lookupAssoc i.segments segmentUriRelative with
      | none =>
        refine ⟨?_, k0, ?_⟩
        · simp only [List.map_cons, ihkeys]
        · intro k' hk'
          rw [lookupAssoc_cons, lookupAssoc_cons]
          by_cases hkk : k' = k
          · simp only [if_pos hkk]
          · simp only [if_neg hkk, ihframe k' hk']
      | some si =>
        by_cases hrec : si.received = false
        · simp only [if_pos hrec]
          refine ⟨by simp only [List.map_cons], k, ?_⟩
          intro k' hk'
          rw [lookupAssoc_cons, lookupAssoc_cons, if_neg hk', if_neg hk']
        · simp only [if_neg hrec]
          refine ⟨by simp only [List.map_cons, ihkeys], k0, ?_⟩
          intro k' hk'
          rw [lookupAssoc_cons, lookupAssoc_cons]
          by_cases hkk : k' = k
          · simp only [if_pos hkk]
          · simp only [if_neg hkk, ihframe k' hk']
    · refine ⟨by simp only [List.map_cons, ihkeys], k0, ?_⟩
      intro k' hk'
      rw [lookupAssoc_cons, lookupAssoc_cons]
      by_cases hkk : k' = k
      · simp only [if_pos hkk]
      · simp only [if_neg hkk, ihframe k' hk']

/-- Counterexample for claim C6.  Two revisions of channel `c` (tracking
keys `c/a.m3u8`, first-ingested and last re-ingested at time 100, and
`c/b.m3u8`, ingested at time 200) both expect `seg.ts` with
`received = false` and neither is complete; the claim says the tie goes to
the most recently ingested revision (`c/b.m3u8`, `receivedAt = 200`), but
the exact-match scan of `SegmentHandler.handlePut` walks the tracker in map
insertion order and marks `c/a.m3u8`'s expectation, leaving `c/b.m3u8`'s
unreceived. -/
theorem c6_counterexample :
    (((lookupAssoc (applyEvents 0 [] [c6PutA, c6PutB]) (str "c/a.m3u8")).bind
        (fun i => lookupAssoc i.segments (str "seg.ts"))).map
      (fun s => s.received) = some false ∧
     ((lookupAssoc (applyEvents 0 [] [c6PutA, c6PutB]) (str "c/b.m3u8")).bind
        (fun i => lookupAssoc i.segments (str "seg.ts"))).map
      (fun s => s.received) = some false ∧
     (lookupAssoc (applyEvents 0 [] [c6PutA, c6PutB]) (str "c/a.m3u8")).map
      (fun i => (i.allSegmentsReceived, i.receivedAt)) = some (false, 100) ∧
     (lookupAssoc (applyEvents 0 [] [c6PutA, c6PutB]) (str "c/b.m3u8")).map
      (fun i => (i.allSegmentsReceived, i.receivedAt)) = some (false, 200)) ∧
    (((lookupAssoc (applyEvents 0 []
          [c6PutA, c6PutB, .segmentPut (str "c") (str "seg.ts") 9 300])
        (str "c/a.m3u8")).bind
        (fun i => lookupAssoc i.segments (str "seg.ts"))).map
      (fun s => s.received) = some true ∧
     ((lookupAssoc (applyEvents 0 []
          [c6PutA, c6PutB, .segmentPut (str "c") (str "seg.ts") 9 300])
        (str "c/b.m3u8")).bind
        (fun i => lookupAssoc i.segments (str "seg.ts"))).map
      (fun s => s.received) = some false) := by
  constructor
  · exact ⟨by decide, by decide, by decide, by decide⟩
  · exact ⟨by decide, by decide⟩

/-- Claim C6 (corrected).  The exact-match tie between several not-yet-complete
revisions of the same channel that expect the uploaded identity with
`received = false` is broken by the stream tracker's map iteration
(insertion) order — the first such entry in the map is mutated and the scan
stops — not by recency of ingest: with every earlier entry failing the match
condition, the first matching entry `(k, info)` is marked and everything
after it is untouched. -/
theorem c6_first_match_in_map_order (channelId segmentUriRelative : Str) (size now : Nat)
    (pre : Tracker) (k : Str) (info : M3u8TrackingInfo) (post : Tracker)
    (hpre : ∀ k' i', (k', i') ∈ pre → ¬(i'.channelId = channelId ∧
      i'.allSegmentsReceived = false ∧
      ∃ si, lookupAssoc i'.segments segmentUriRelative = some si ∧ si.received = false))
    (hch : info.channelId = channelId) (hall : info.allSegmentsReceived = false)
    (si : SegmentInfo) (hsi : lookupAssoc info.segments segmentUriRelative = some si)
    (hrec : si.received = false) :
    segmentHandlePut (pre ++ (k, info) :: post) channelId segmentUriRelative size now =
      (true, pre ++ (k, markSegmentReceived info segmentUriRelative si size now) :: post) := by
  induction pre with
  | nil =>
    simp only [List.nil_append, segmentHandlePut, segmentScan]
    rw [if_pos ⟨hch, hall, by rw [hsi]; rfl⟩]
    rw [hsi]
    simp [hrec]
  | cons hd t ih =>
    obtain ⟨k', i'⟩ := hd
    have hne := hpre k' i' (List.mem_cons_self _ _)
    have ht := ih (fun k'' i'' hm => hpre k'' i'' (List.mem_cons_of_mem _ hm))
    simp only [segmentHandlePut, List.cons_append, segmentScan] at ht ⊢
    split
    · next hcond =>
      obtain ⟨hch', hall', hsome'⟩ := hcond
      cases hsi' : lookupAssoc i'.segments segmentUriRelative with
      | none => rw [hsi'] at hsome'; cases hsome'
      | some si' =>
        have hrec' : si'.received = true := by
          by_contra hc
          exact hne ⟨hch', hall', si', hsi', by revert hc; cases si'.received <;> simp⟩
        simp [hrec', ht]
    · simp [ht]

theorem c6_first_match_in_map_order_witness :
    (∀ k' i', (k', i') ∈ ([(str "k0", c3Info)] : Tracker) →
      ¬(i'.channelId = str "c" ∧ i'.allSegmentsReceived = false ∧
        ∃ si, lookupAssoc i'.segments (str "seg.ts") = some si ∧ si.received = false)) ∧
    c6Info.channelId = str "c" ∧ c6Info.allSegmentsReceived = false ∧
    lookupAssoc c6Info.segments (str "seg.ts") =
      some ⟨str "seg.ts", 1, false, none, none, some 10, false⟩ ∧
    (⟨str "seg.ts", 1, false, none, none, some 10, false⟩ : SegmentInfo).received = false ∧
    segmentHandlePut ([(str "k0", c3Info)] ++ (str "k1", c6Info) :: [(str "k2", c2Info)])
        (str "c") (str "seg.ts") 9 300 =
      (true, [(str "k0", c3Info)] ++
        (str "k1", markSegmentReceived c6Info (str "seg.ts")
          ⟨str "seg.ts", 1, false, none, none, some 10, false⟩ 9 300) :: [(str "k2", c2Info)]) := by
  have hpre : ∀ k' i', (k', i') ∈ ([(str "k0", c3Info)] : Tracker) →
      ¬(i'.channelId = str "c" ∧ i'.allSegmentsReceived = false ∧
        ∃ si, lookupAssoc i'.segments (str "seg.ts") = some si ∧ si.received = false) := by
    intro k' i' hm hc
    have hpair : k' = str "k0" ∧ i' = c3Info := by simpa using hm
    obtain ⟨rfl, rfl⟩ := hpair
    obtain ⟨-, -, si, hsi, hrecF⟩ := hc
    rw [show lookupAssoc c3Info.segments (str "seg.ts") =
      some ⟨str "seg.ts", 1, true, some 50, some 4, some 10, false⟩ from by decide] at hsi
    cases hsi
    exact Bool.noConfusion hrecF
  exact ⟨hpre, rfl, rfl, by decide, rfl,
    c6_first_match_in_map_order (str "c") (str "seg.ts") 9 300
      [(str "k0", c3Info)] (str "k1") c6Info [(str "k2", c2Info)] hpre rfl rfl
      ⟨str "seg.ts", 1, false, none, none, some 10, false⟩ (by decide) rfl⟩

theorem maxStreakOf_cons (k' : Str) (i : M3u8TrackingInfo) (t : Tracker) (k : Str) :
    maxStreakOf ((k', i) :: t) k =
      if k = k' then i.maxSuccessiveTimeouts else maxStreakOf t k := by
  simp only [maxStreakOf, lookupAssoc_cons]
  split <;> rfl

theorem markSegmentReceived_maxSuccessiveTimeouts (i : M3u8TrackingInfo) (u : Str)
    (si : SegmentInfo) (sz n : Nat) :
    (markSegmentReceived i u si sz n).maxSuccessiveTimeouts = i.maxSuccessiveTimeouts := by
  simp only [markSegmentReceived]
  split <;> rfl

theorem segmentScan_maxStreakOf (channelId uri : Str) (sz n : Nat) (tracker : Tracker)
    (k : Str) :
    maxStreakOf (segmentScan channelId uri sz n tracker).2 k = maxStreakOf tracker k := by
  induction tracker with
  | nil => rfl
  | cons hd t ih =>
    obtain ⟨k', i⟩ := hd
    simp only [segmentScan]
    split
    · cases hsi : lookupAssoc i.segments uri with
      | none =>
        rw [maxStreakOf_cons, maxStreakOf_cons, ih]
      | some si =>
        by_cases hrec : si.received = false
        · simp only [if_pos hrec]
          rw [maxStreakOf_cons, maxStreakOf_cons, markSegmentReceived_maxSuccessiveTimeouts]
        · simp only [if_neg hrec]
          rw [maxStreakOf_cons, maxStreakOf_cons, ih]
    · rw [maxStreakOf_cons, maxStreakOf_cons, ih]

theorem maxStreakOf_setAssoc_self (tracker : Tracker) (k : Str) (i : M3u8TrackingInfo) :
    maxStreakOf (setAssoc tracker k i) k = i.maxSuccessiveTimeouts := by
  simp only [maxStreakOf, lookupAssoc_setAssoc_self]
  rfl

theorem m3u8HandlePut_maxStreakOf_le (tracker : Tracker)
    (channelId filename m3u8Uri content : Str) (bufferMs now : Nat) (k : Str) :
    maxStreakOf tracker k ≤
      maxStreakOf (m3u8HandlePut tracker channelId filename m3u8Uri content bufferMs now) k := by
  simp only [m3u8HandlePut]
  cases hp : parseM3u8 content m3u8Uri channelId now with
  | error e => exact le_rfl
  | ok v =>
    cases v with
    | none => exact le_rfl
    | some parsedData =>
      by_cases hk : k = m3u8TrackingKey channelId filename
      · subst hk
        rw [maxStreakOf_setAssoc_self, m3u8MergeRevision_maxSuccessiveTimeouts]
        cases hl : lookupAssoc tracker (m3u8TrackingKey channelId filename) with
        | none => simp [maxStreakOf, hl, jsOrNat]
        | some e =>
          simp only [maxStreakOf, hl, Option.map_some', Option.getD_some, jsOrNat]
          split
          · omega
          · exact le_rfl
      · rw [show maxStreakOf (setAssoc tracker (m3u8TrackingKey channelId filename)
            (m3u8MergeRevision (lookupAssoc tracker (m3u8TrackingKey channelId filename))
              parsedData channelId m3u8Uri bufferMs now)) k = maxStreakOf tracker k from by
          simp only [maxStreakOf, lookupAssoc_setAssoc_ne _ _ _ _ hk]]

theorem checkSegmentArrival_maxStreakOf_le (tracker : Tracker) (m3u8Key : Str) (k : Str) :
    maxStreakOf tracker k ≤ maxStreakOf (checkSegmentArrival tracker m3u8Key) k := by
  cases hl : lookupAssoc tracker m3u8Key with
  | none => simp [checkSegmentArrival, hl]
  | some info =>
    by_cases hall : info.allSegmentsReceived = true
    · simp [checkSegmentArrival, hl, hall]
    · have hallf : info.allSegmentsReceived = false := by
        revert hall; cases info.allSegmentsReceived <;> simp
      rw [checkSegmentArrival_of_lookup_false tracker m3u8Key info hl hallf]
      by_cases hk : k = m3u8Key
      · subst hk
        rw [maxStreakOf_setAssoc_self]
        simp only [maxStreakOf, hl, Option.map_some', Option.getD_some]
        split
        · exact le_rfl
        · exact le_max_left _ _
      · rw [show maxStreakOf (setAssoc tracker m3u8Key _) k = maxStreakOf tracker k from by
          simp only [maxStreakOf, lookupAssoc_setAssoc_ne _ _ _ _ hk]]

/-- Claim C7 (confirmed).  Over any sequence of engine events — playlist
ingests, segment ingests and deadline firings — the
`maxSuccessiveTimeouts` observed for a fixed tracking key (0 while the key
is untracked) never decreases: a playlist re-ingest carries it over, a
segment correlation leaves it untouched (only the current streak resets),
and a deadline evaluation only raises it. -/
theorem c7_max_streak_monotone (bufferMs : Nat) (k : Str) (tracker : Tracker)
    (evs : List Event) :
    maxStreakOf tracker k ≤ maxStreakOf (applyEvents bufferMs tracker evs) k := by
  induction evs generalizing tracker with
  | nil => exact le_rfl
  | cons e rest ih =>
    refine le_trans ?_ (ih (applyEvent bufferMs tracker e))
    cases e with
    | m3u8Put channelId filename m3u8Uri content now =>
      exact m3u8HandlePut_maxStreakOf_le tracker channelId filename m3u8Uri content bufferMs now k
    | segmentPut channelId uri sz now =>
      exact le_of_eq (segmentScan_maxStreakOf channelId uri sz now tracker k).symm
    | deadlineFire m3u8Key => exact checkSegmentArrival_maxStreakOf_le tracker m3u8Key k

theorem foldl_add_ratCast (l : List Int) (a : Rat) :
    l.foldl (fun (sum : Rat) (i : Int) => sum + (i : Rat)) a
      = a + (l.map (fun i : Int => (i : Rat))).sum := by
  induction l generalizing a with
  | nil => simp
  | cons x t ih => simp [ih, add_assoc]

theorem foldl_add_sq (l : List Int) (m : Rat) (a : Rat) :
    l.foldl (fun (sum : Rat) (i : Int) => sum + ((i : Rat) - m) * ((i : Rat) - m)) a
      = a + (l.map (fun i : Int => ((i : Rat) - m) ^ 2)).sum := by
  induction l generalizing a with
  | nil => simp
  | cons x t ih => simp [ih, add_assoc, pow_two]

/-- Claim C8 (confirmed).  The metrics snapshot's `segmentArrivalJitter` is
exactly 0 when fewer than two arrival intervals are recorded, and otherwise
exactly the population standard deviation of `segmentArrivalIntervals`:
stated on the squares (`calcSegmentArrivalJitterSq` is the square of the
reported jitter and `popVarianceSpec` the square of the spec's population
standard deviation), which determines the nonnegative square roots. -/
theorem c8_jitter_is_population_stddev (info : M3u8TrackingInfo) :
    calcSegmentArrivalJitterSq info =
      if info.segmentArrivalIntervals.length < 2 then 0
      else popVarianceSpec info.segmentArrivalIntervals := by
  simp only [calcSegmentArrivalJitterSq, popVarianceSpec]
  by_cases h : info.segmentArrivalIntervals.length > 1
  · rw [if_pos h, if_neg (by omega)]
    rw [foldl_add_ratCast, foldl_add_sq]
    simp [zero_add]
  · rw [if_neg h, if_pos (by omega)]

theorem parseScan_cons_skip (now : Nat) (td : Int) (segs : List (Str × SegmentInfo))
    (l : Str) (ls : List Str)
    (hstream : streamInfTag.isPrefixOf (jsTrim l) = false)
    (hext : extinfTag.isPrefixOf (jsTrim l) = false) :
    parseScan now td segs (l :: ls) =
      if targetDurationTag.isPrefixOf (jsTrim l) = true
      then parseScan now (parseIntJS (colonField1 (jsTrim l))) segs ls
      else parseScan now td segs ls := by
  cases ls with
  | nil => simp only [parseScan, hstream, hext, Bool.false_eq_true, if_false]
  | cons r rs => simp only [parseScan, hstream, hext, Bool.false_eq_true, if_false]

theorem parseScan_cons_seg (now : Nat) (td : Int) (segs : List (Str × SegmentInfo))
    (l u : Str) (ls : List Str)
    (hstream : streamInfTag.isPrefixOf (jsTrim l) = false)
    (htd : targetDurationTag.isPrefixOf (jsTrim l) = false)
    (hext : extinfTag.isPrefixOf (jsTrim l) = true) :
    parseScan now td segs (l :: u :: ls) =
      parseScan now td
        (setAssoc segs (jsTrim u)
          (mkParsedSegment (jsTrim u) (parseFloatJS (extinfDurField (jsTrim l))) now)) ls := by
  simp only [parseScan, hstream, htd, hext, Bool.false_eq_true, if_false, if_true]

theorem parseScan_PLines (now : Nat) {es : List (Str × Str)} {ls : List Str}
    (h : PLines es ls) :
    ∀ (td : Int) (segs : List (Str × SegmentInfo)), ∃ td',
      parseScan now td segs ls = .ok (td',
        es.foldl (fun acc p => setAssoc acc (jsTrim p.2)
          (mkParsedSegment (jsTrim p.2) (parseFloatJS p.1) now)) segs) := by
  induction h with
  | nil => exact fun td segs => ⟨td, rfl⟩
  | skip l hstream hext htail ih =>
    intro td segs
    rw [parseScan_cons_skip now td segs l _ hstream hext]
    by_cases htd : targetDurationTag.isPrefixOf (jsTrim l) = true
    · rw [if_pos htd]
      exact ih (parseIntJS (colonField1 (jsTrim l))) segs
    · rw [if_neg htd]
      exact ih td segs
  | seg l u hstream htd hext htail ih =>
    intro td segs
    rw [parseScan_cons_seg now td segs l u _ hstream htd hext, List.foldl_cons]
    exact ih td _

/-- Counterexample for claim C5.  The playlist text
`"#EXTINF:1,\ns.ts\n#EXTINF:2,\ns.ts"` contains N = 2 per-segment duration
directives, each `#EXTINF:` line followed by a segment identity line
(witnessed by the `PLines` derivation), and it parses without error; but
both directives advertise the same identity `s.ts`, so the parser's `Map`
collapses them and the resulting segments map has size 1 ≠ 2 (with the
second directive's duration overwriting the first). -/
theorem c5_counterexample :
    PLines [(str "1", str "s.ts"), (str "2", str "s.ts")]
      (jsSplit nlChar (str "#EXTINF:1,\ns.ts\n#EXTINF:2,\ns.ts")) ∧
    (parseM3u8 (str "#EXTINF:1,\ns.ts\n#EXTINF:2,\ns.ts") (str "/l") (str "c") 5).map
      (fun o => o.map (fun i => i.segments.length)) = .ok (some 1) := by
  constructor
  · rw [show jsSplit nlChar (str "#EXTINF:1,\ns.ts\n#EXTINF:2,\ns.ts") =
      [str "#EXTINF:1,", str "s.ts", str "#EXTINF:2,", str "s.ts"] from by decide]
    rw [show (str "1") = extinfDurField (jsTrim (str "#EXTINF:1,")) from by decide,
      show (str "2") = extinfDurField (jsTrim (str "#EXTINF:2,")) from by decide]
    exact PLines.seg _ _ (by decide) (by decide) (by decide)
      (PLines.seg _ _ (by decide) (by decide) (by decide) PLines.nil)
  · decide

/-- Claim C5 (corrected).  For every playlist text whose lines consist of N
per-segment duration directives (each `#EXTINF:` line immediately followed
by its segment identity line) interleaved with arbitrary non-directive
lines, and whose N trimmed identities are pairwise distinct (the amendment
the counterexample forces — duplicate identities collapse in the map), the
parse succeeds, the segments map has size exactly N, and the entry recorded
for each identity carries the duration parsed from its own `#EXTINF:`
duration field. -/
theorem c5_parse_sizes_and_durations (content m3u8Uri channelId : Str) (now : Nat)
    (es : List (Str × Str)) (hls : PLines es (jsSplit nlChar content))
    (hnd : (es.map (fun p => jsTrim p.2)).Nodup) (hne : es ≠ []) :
    ∃ info, parseM3u8 content m3u8Uri channelId now = .ok (some info) ∧
      info.segments.length = es.length ∧
      ∀ p ∈ es, lookupAssoc info.segments (jsTrim p.2) =
        some (mkParsedSegment (jsTrim p.2) (parseFloatJS p.1) now) := by
  obtain ⟨td', hscan⟩ := parseScan_PLines now hls 10 []
  have hlen : (es.foldl (fun acc p => setAssoc acc (jsTrim p.2)
      (mkParsedSegment (jsTrim p.2) (parseFloatJS p.1) now)) []).length = es.length := by
    have h0 := length_foldl_setAssoc (fun p : Str × Str => jsTrim p.2)
      (fun p : Str × Str => mkParsedSegment (jsTrim p.2) (parseFloatJS p.1) now) es [] hnd
      (by intro p hp hmem; cases hmem)
    simpa using h0
  have hne0 : (es.foldl (fun acc p => setAssoc acc (jsTrim p.2)
      (mkParsedSegment (jsTrim p.2) (parseFloatJS p.1) now)) []).length ≠ 0 := by
    rw [hlen]
    exact fun h0 => hne (List.length_eq_zero.mp h0)
  have hparse : ∃ info, parseM3u8 content m3u8Uri channelId now = .ok (some info) ∧
      info.segments = es.foldl (fun acc p => setAssoc acc (jsTrim p.2)
        (mkParsedSegment (jsTrim p.2) (parseFloatJS p.1) now)) [] := by
    simp only [parseM3u8, hscan]
    rw [if_neg hne0]
    exact ⟨_, rfl, rfl⟩
  obtain ⟨info, hp2, hsegs⟩ := hparse
  refine ⟨info, hp2, ?_, ?_⟩
  · rw [hsegs]
    exact hlen
  · intro p hp
    rw [hsegs]
    exact lookupAssoc_foldl_setAssoc_of_mem (fun p : Str × Str => jsTrim p.2)
      (fun p : Str × Str => mkParsedSegment (jsTrim p.2) (parseFloatJS p.1) now) es [] hnd p hp

theorem c5_parse_sizes_and_durations_witness :
    PLines [(str "1", str "a.ts"), (str "2.5", str "b.ts")]
      (jsSplit nlChar
        (str "#EXTM3U\n#EXT-X-TARGETDURATION:7\n#EXTINF:1,\na.ts\n#EXTINF:2.5,\nb.ts")) ∧
    (([(str "1", str "a.ts"), (str "2.5", str "b.ts")] : List (Str × Str)).map
      (fun p => jsTrim p.2)).Nodup ∧
    ([(str "1", str "a.ts"), (str "2.5", str "b.ts")] : List (Str × Str)) ≠ [] ∧
    ∃ info, parseM3u8
        (str "#EXTM3U\n#EXT-X-TARGETDURATION:7\n#EXTINF:1,\na.ts\n#EXTINF:2.5,\nb.ts")
        (str "/l") (str "c") 7 = .ok (some info) ∧
      info.segments.length =
        ([(str "1", str "a.ts"), (str "2.5", str "b.ts")] : List (Str × Str)).length ∧
      ∀ p ∈ ([(str "1", str "a.ts"), (str "2.5", str "b.ts")] : List (Str × Str)),
        lookupAssoc info.segments (jsTrim p.2) =
          some (mkParsedSegment (jsTrim p.2) (parseFloatJS p.1) 7) := by
  have hls : PLines [(str "1", str "a.ts"), (str "2.5", str "b.ts")]
      (jsSplit nlChar
        (str "#EXTM3U\n#EXT-X-TARGETDURATION:7\n#EXTINF:1,\na.ts\n#EXTINF:2.5,\nb.ts")) := by
    rw [show jsSplit nlChar
        (str "#EXTM3U\n#EXT-X-TARGETDURATION:7\n#EXTINF:1,\na.ts\n#EXTINF:2.5,\nb.ts") =
      [str "#EXTM3U", str "#EXT-X-TARGETDURATION:7", str "#EXTINF:1,", str "a.ts",
        str "#EXTINF:2.5,", str "b.ts"] from by decide]
    rw [show (str "1") = extinfDurField (jsTrim (str "#EXTINF:1,")) from by decide,
      show (str "2.5") = extinfDurField (jsTrim (str "#EXTINF:2.5,")) from by decide]
    exact PLines.skip _ (by decide) (by decide)
      (PLines.skip _ (by decide) (by decide)
        (PLines.seg _ _ (by decide) (by decide) (by decide)
          (PLines.seg _ _ (by decide) (by decide) (by decide) PLines.nil)))
  have hnd : (([(str "1", str "a.ts"), (str "2.5", str "b.ts")] : List (Str × Str)).map
      (fun p => jsTrim p.2)).Nodup := by decide
  have hne : ([(str "1", str "a.ts"), (str "2.5", str "b.ts")] : List (Str × Str)) ≠ [] := by
    decide
  exact ⟨hls, hnd, hne,
    c5_parse_sizes_and_durations
      (str "#EXTM3U\n#EXT-X-TARGETDURATION:7\n#EXTINF:1,\na.ts\n#EXTINF:2.5,\nb.ts")
      (str "/l") (str "c") 7 [(str "1", str "a.ts"), (str "2.5", str "b.ts")] hls hnd hne⟩

/-- Counterexample for claim C9.  Ingesting a playlist for the fresh tracking
key `c/p.m3u8` at time 1000 — with no segment ever correlated for the key —
leaves `lastSegmentReceivedTime = 1000`, not 0 (the source initializes it
with `existingTrackingInfo?.lastSegmentReceivedTime || now`); consequently
the `previousTime > 0` guard already holds at the first segment reception
(time 1500), and an arrival interval `1500 - 1000 = 500` IS recorded for the
first received segment, where the claim says none may be. -/
theorem c9_counterexample :
    ((lookupAssoc (applyEvents 0 []
        [.m3u8Put (str "c") (str "p.m3u8") (str "/live/c/p.m3u8")
          (str "#EXT-X-TARGETDURATION:10\n#EXTINF:1,\nseg.ts") 1000])
      (str "c/p.m3u8")).map (fun i => i.lastSegmentReceivedTime)) = some 1000 ∧
    ((lookupAssoc (applyEvents 0 []
        [.m3u8Put (str "c") (str "p.m3u8") (str "/live/c/p.m3u8")
          (str "#EXT-X-TARGETDURATION:10\n#EXTINF:1,\nseg.ts") 1000,
         .segmentPut (str "c") (str "seg.ts") 5 1500])
      (str "c/p.m3u8")).map (fun i => i.segmentArrivalIntervals)) = some [500] :=
  ⟨by decide, by decide⟩

/-- Claim C9 (corrected).  At the first playlist ingest of a tracking key (no
stored revision yet, hence no segment ever correlated for the key), the
stored revision's `lastSegmentReceivedTime` is initialized to the ingest
time `now` — not 0 as the claim states — via the source's
`existingTrackingInfo?.lastSegmentReceivedTime || now` fallback; so for any
positive clock the `previousTime > 0` guard already holds at the first
segment reception and an arrival interval (reception time minus playlist
ingest time) is recorded for the first received segment. -/
theorem c9_last_received_initialized_to_now (tracker : Tracker)
    (channelId filename m3u8Uri content : Str) (bufferMs now : Nat)
    (parsedData : M3u8TrackingInfo)
    (hnew : lookupAssoc tracker (m3u8TrackingKey channelId filename) = none)
    (hp : parseM3u8 content m3u8Uri channelId now = .ok (some parsedData)) :
    ∃ info, lookupAssoc
        (m3u8HandlePut tracker channelId filename m3u8Uri content bufferMs now)
        (m3u8TrackingKey channelId filename) = some info ∧
      info.lastSegmentReceivedTime = now := by
  simp only [m3u8HandlePut, hp, hnew]
  refine ⟨_, lookupAssoc_setAssoc_self _ _ _, ?_⟩
  rw [m3u8MergeRevision_lastSegmentReceivedTime]
  rfl

theorem c9_last_received_initialized_to_now_witness :
    lookupAssoc ([] : Tracker) (m3u8TrackingKey (str "c") (str "p.m3u8")) = none ∧
    parseM3u8 (str "#EXT-X-TARGETDURATION:10\n#EXTINF:1,\nseg.ts")
      (str "/live/c/p.m3u8") (str "c") 1000 =
      .ok (some ⟨str "/live/c/p.m3u8", 10,
        [(str "seg.ts", ⟨str "seg.ts", 1, false, none, none, some 1000, false⟩)],
        false, 1000, str "c", none, 1000, 2000, [1000], 0, 0, 0, []⟩) ∧
    ∃ info, lookupAssoc
        (m3u8HandlePut [] (str "c") (str "p.m3u8") (str "/live/c/p.m3u8")
          (str "#EXT-X-TARGETDURATION:10\n#EXTINF:1,\nseg.ts") 0 1000)
        (m3u8TrackingKey (str "c") (str "p.m3u8")) = some info ∧
      info.lastSegmentReceivedTime = 1000 :=
  ⟨by decide, by decide,
    c9_last_received_initialized_to_now [] (str "c") (str "p.m3u8")
      (str "/live/c/p.m3u8") (str "#EXT-X-TARGETDURATION:10\n#EXTINF:1,\nseg.ts") 0 1000
      ⟨str "/live/c/p.m3u8", 10,
        [(str "seg.ts", ⟨str "seg.ts", 1, false, none, none, some 1000, false⟩)],
        false, 1000, str "c", none, 1000, 2000, [1000], 0, 0, 0, []⟩
      (by decide) (by decide)⟩
